import Mathlib

/-!
Shallow embedding of the core of the tiktok-niche-scraper repository
(scraper/video_parser.py, scraper/tiktok_api.py, main.py) together with
theorems settling the claims about the Normalizer and Ranker.

Conventions of the embedding:
* Python values are modelled by the inductive type PyVal; CPython floats are
  idealised as exact rationals (every constant appearing in the claims is
  exactly representable, and no claim depends on binary rounding error).
* Fallible Python code is modelled in the Except monad over PyExc; an
  uncaught Python exception is an Except.error value.
* The module video_parser.py executes (line 8) the import statement
  "from datetime import datetime", so the name datetime denotes the class;
  the attribute lookups written "datetime.datetime.fromtimestamp" and
  "datetime.datetime.now" in that module therefore raise AttributeError.
  The embedding models those two call sites as Except.error .attributeError.
* CPython string hashing is randomised per process (PYTHONHASHSEED), so
  hash(str(raw_video)) is modelled by a fixed deterministic stand-in
  function; no claim depends on its value.
-/

/-- Exception kinds that the embedded code can raise. -/
inductive PyExc where
  | attributeError : PyExc
  | valueError : PyExc
  | typeError : PyExc
  | keyError : PyExc
deriving DecidableEq

/-- Model of a Python value as it appears in the raw video records handled by
video_parser.py: integers, floats (idealised as rationals), strings, booleans,
None, dicts with string keys, and lists. -/
inductive PyVal where
  | int : Int → PyVal
  | float : Rat → PyVal
  | str : String → PyVal
  | bool : Bool → PyVal
  | none : PyVal
  | dict : List (String × PyVal) → PyVal
  | list : List PyVal → PyVal

/-- Python truthiness: zero numbers, empty strings, empty containers, None and
False are falsy; everything else is truthy. -/
def pyTruthy : PyVal → Bool
  | .int n => n != 0
  | .float q => q != 0
  | .str s => s != ""
  | .bool b => b
  | .none => false
  | .dict fs => !fs.isEmpty
  | .list xs => !xs.isEmpty

/-- Lookup of a key in the association list modelling a Python dict.
Keys of a Python dict are unique, so first match is the match. -/
def dictLookup (fs : List (String × PyVal)) (k : String) : Option PyVal :=
  (fs.find? (fun p => p.1 == k)).map (fun p => p.2)

/-- Substring test on character lists, modelling the Python operator
"k in s" for strings. -/
def listIsSubstr (n : List Char) : List Char → Bool
  | [] => n.isEmpty
  | c :: t => n.isPrefixOf (c :: t) || listIsSubstr n t

/-- Test whether a PyVal is the string k, modelling the equality comparison
performed by the Python operator "k in someList". -/
def pyIsStrEq (k : String) : PyVal → Bool
  | .str s => s == k
  | _ => false

/-- Model of the Python operator "k in v": key membership for dicts, substring
test for strings, element membership for lists; TypeError otherwise. -/
def pyContains (v : PyVal) (k : String) : Except PyExc Bool :=
  match v with
  | .dict fs => .ok (dictLookup fs k).isSome
  | .str s => .ok (listIsSubstr k.data s.data)
  | .list xs => .ok (xs.any (pyIsStrEq k))
  | _ => .error .typeError

/-- Model of the Python subscript v[k] with a string key: dict lookup
(KeyError when absent); TypeError on any other receiver. -/
def pyGetItem (v : PyVal) (k : String) : Except PyExc PyVal :=
  match v with
  | .dict fs =>
    match dictLookup fs k with
    | some x => .ok x
    | Option.none => .error .keyError
  | _ => .error .typeError

/-- Model of the Python method call v.get(k, d): only dicts have a get
method, every other receiver raises AttributeError. -/
def pyGetDefault (v : PyVal) (k : String) (d : PyVal) : Except PyExc PyVal :=
  match v with
  | .dict fs => .ok ((dictLookup fs k).getD d)
  | _ => .error .attributeError

/-- Strip leading and trailing whitespace from a character list, modelling
the Python method str.strip() with no argument. -/
def pyStripWS (cs : List Char) : List Char :=
  ((cs.dropWhile Char.isWhitespace).reverse.dropWhile Char.isWhitespace).reverse

/-- Strip the characters of the list chars from both ends, modelling the
Python method str.strip(chars). -/
def pyStripChars (chars : List Char) (cs : List Char) : List Char :=
  ((cs.dropWhile (chars.contains ·)).reverse.dropWhile (chars.contains ·)).reverse

/-- Truncation of a rational toward zero, the behaviour of the Python
conversion int(x) on a float x. -/
def ratTrunc (q : Rat) : Int :=
  if q < 0 then ⌈q⌉ else ⌊q⌋

/-- Parse an optionally signed decimal integer, the grammar accepted by the
Python conversion int(s) after stripping whitespace (digit separators are not
modelled; no input in the repository uses them). -/
def intStringCore (cs : List Char) : Option Int :=
  match cs with
  | '-' :: rest =>
    if rest ≠ [] ∧ rest.all Char.isDigit
    then some (-(rest.foldl (fun a c => a * 10 + (c.toNat - 48)) 0 : Nat))
    else Option.none
  | '+' :: rest =>
    if rest ≠ [] ∧ rest.all Char.isDigit
    then some ((rest.foldl (fun a c => a * 10 + (c.toNat - 48)) 0 : Nat))
    else Option.none
  | _ =>
    if cs ≠ [] ∧ cs.all Char.isDigit
    then some ((cs.foldl (fun a c => a * 10 + (c.toNat - 48)) 0 : Nat))
    else Option.none

/-- Model of the Python conversion int(s) for a string s. -/
def pyIntOfString (s : String) : Option Int :=
  intStringCore (pyStripWS s.data)

/-- Model of the Python conversion int(x): ints pass through, floats truncate
toward zero, booleans become 0 or 1, strings are parsed as decimal integers
(ValueError on failure), all other values raise TypeError. -/
def pyInt : PyVal → Except PyExc Int
  | .int n => .ok n
  | .float q => .ok (ratTrunc q)
  | .bool b => .ok (if b then 1 else 0)
  | .str s =>
    match pyIntOfString s with
    | some n => .ok n
    | Option.none => .error .valueError
  | _ => .error .typeError

mutual

/-- Structural rendering of a PyVal as text. It stands in for the Python
conversion str(x); for strings it is the identity, exactly as in Python, and
for containers it is a deterministic rendering. The only consumer is the
hash-based fallback id of parse_video_data, and no claim depends on the exact
text produced for non-string values. -/
def pyStr : PyVal → String
  | .int n => toString n
  | .float q => toString q
  | .str s => s
  | .bool b => if b then "True" else "False"
  | .none => "None"
  | .dict fs => "dict(" ++ pyStrFields fs ++ ")"
  | .list xs => "list(" ++ pyStrElems xs ++ ")"

/-- Rendering of the entries of a dict, helper of pyStr. -/
def pyStrFields : List (String × PyVal) → String
  | [] => ""
  | [p] => p.1 ++ ": " ++ pyStr p.2
  | p :: q :: rest => p.1 ++ ": " ++ pyStr p.2 ++ ", " ++ pyStrFields (q :: rest)

/-- Rendering of the elements of a list, helper of pyStr. -/
def pyStrElems : List PyVal → String
  | [] => ""
  | [x] => pyStr x
  | x :: y :: rest => pyStr x ++ ", " ++ pyStrElems (y :: rest)

end

/-- Deterministic stand-in for the CPython string hash, which is randomised
per process via PYTHONHASHSEED. No claim depends on its value. -/
def pyHash (s : String) : Int :=
  s.data.foldl (fun h c => (h * 1000003 + c.toNat) % 2305843009213693951) 0

/-- Hook extraction on character lists, modelling extract_hook
(video_parser.py lines 25-53). The Python code takes the first line of the
stripped description (split produces a non-empty list, and its first element
is the prefix before the first newline), falling back to the first sentence
of the original description, and finally to the stripped first 100
characters; every returned branch is capped at 100 characters. -/
def extract_hook_chars (s : List Char) : List Char :=
  if s = [] then []
  else
    let first_line := pyStripWS ((pyStripWS s).takeWhile (fun c => c ≠ '\n'))
    if first_line ≠ [] then first_line.take 100
    else
      let first_sentence := pyStripWS (s.takeWhile (fun c => c ≠ '.'))
      if first_sentence ≠ [] then first_sentence.take 100
      else pyStripWS (s.take 100)

/-- Model of extract_hook (video_parser.py lines 25-53) on strings. -/
def extract_hook (s : String) : String :=
  String.mk (extract_hook_chars s.data)

/-- Word characters of the regex class used in the hashtag pattern.
The regex \w also covers non-ASCII word characters; the embedding models the
ASCII range, which is all the claims exercise. -/
def isWordChar (c : Char) : Bool :=
  c.isAlphanum || c = '_'

/-- Scan for the regex #(\w+) occurrences, modelling re.findall in
extract_hashtags (video_parser.py line 69). Characters inside a matched tag
are word characters and can never start a new match, so continuing the scan
one character after the hash sign yields exactly the re.findall matches. -/
def findHashtags : List Char → List String
  | [] => []
  | c :: rest =>
    if c = '#' then
      let tag := rest.takeWhile isWordChar
      if tag.isEmpty then findHashtags rest
      else String.mk tag :: findHashtags rest
    else findHashtags rest

/-- Keep the first occurrence of each element. Python builds list(set(tags));
the iteration order of a CPython set is hash-dependent, so the embedding
fixes first-occurrence order. No claim observes the hashtag order. -/
def dedupKeepFirst (xs : List String) : List String :=
  (xs.foldl (fun acc x => if acc.contains x then acc else acc ++ [x]) [])

/-- Model of extract_hashtags (video_parser.py lines 55-72) as invoked on an
arbitrary value: a falsy argument returns the empty list before any string
method is reached, a truthy non-string raises TypeError inside re.findall. -/
def pyExtractHashtags (v : PyVal) : Except PyExc (List String) :=
  if ¬ pyTruthy v then .ok []
  else
    match v with
    | .str s => .ok (dedupKeepFirst (findHashtags s.data))
    | _ => .error .typeError

/-- Model of extract_hook as invoked on an arbitrary value: a falsy argument
returns the empty string before any string method is reached, a truthy
non-string raises AttributeError at description.strip(). -/
def pyExtractHook (v : PyVal) : Except PyExc String :=
  if ¬ pyTruthy v then .ok ""
  else
    match v with
    | .str s => .ok (extract_hook s)
    | _ => .error .attributeError

/-- Numeric value of a digit list. -/
def digitsVal (ds : List Char) : Nat :=
  ds.foldl (fun a c => a * 10 + (c.toNat - 48)) 0

/-- Model of convert_count_to_number (video_parser.py lines 74-100): strip and
lowercase, then re.match the anchored pattern (\d+(?:\.\d+)?)([km])? and
return int(float(group1) * multiplier); 0 when the match fails. Float
arithmetic is idealised as exact arithmetic: for the nonnegative decimal D.F
with k fractional digits the exact product (D + F / 10 ^ k) * mult truncated
toward zero is the integer D * mult + F * mult / 10 ^ k. -/
def convert_count_to_number (s : String) : Int :=
  let cs := (pyStripWS s.data).map Char.toLower
  let ds := cs.takeWhile Char.isDigit
  if ds = [] then 0
  else
    let rest := cs.dropWhile Char.isDigit
    let fracRest : Option (List Char) × List Char :=
      match rest with
      | '.' :: r2 =>
        let fs := r2.takeWhile Char.isDigit
        if fs = [] then (Option.none, rest)
        else (some fs, r2.dropWhile Char.isDigit)
      | _ => (Option.none, rest)
    let mult : Nat :=
      match fracRest.2 with
      | 'k' :: _ => 1000
      | 'm' :: _ => 1000000
      | _ => 1
    match fracRest.1 with
    | some fs => Int.ofNat (digitsVal ds * mult + digitsVal fs * mult / 10 ^ fs.length)
    | Option.none => Int.ofNat (digitsVal ds * mult)

/-- Attempt to match the regex (\d+(?:\.\d+)?)[KkMm]? followed by the literal
word (a space and the unit, e.g. " view") at the start of cs, returning
group 1 of the match. The optional trailing s of the unit in the source
patterns can never cause a failure and needs no modelling. Greedy matching
with backtracking reduces to: try the fractional extension of group 1 first,
and try consuming a suffix letter before not consuming it; the digit runs
themselves never backtrack because no later pattern element can match a
digit. -/
def numTokenAt (cs : List Char) (word : List Char) : Option String :=
  let ds := cs.takeWhile Char.isDigit
  if ds = [] then Option.none
  else
    let rest := cs.dropWhile Char.isDigit
    let cands : List (List Char × List Char) :=
      match rest with
      | '.' :: r2 =>
        let fs := r2.takeWhile Char.isDigit
        if fs = [] then [(ds, rest)]
        else [(ds ++ '.' :: fs, r2.dropWhile Char.isDigit), (ds, rest)]
      | _ => [(ds, rest)]
    cands.findSome? (fun gr =>
      let withSuffix : List (List Char) :=
        match gr.2 with
        | c :: r2 => if c = 'K' ∨ c = 'k' ∨ c = 'M' ∨ c = 'm' then [r2, gr.2] else [gr.2]
        | [] => [[]]
      if withSuffix.any (fun r2 => word.isPrefixOf r2) then some (String.mk gr.1)
      else Option.none)

/-- Leftmost search for the numeric token pattern, modelling re.search with
the patterns VIEW_COUNT_PATTERN, LIKE_COUNT_PATTERN and COMMENT_COUNT_PATTERN
(video_parser.py lines 21-23); returns group 1 of the first match. -/
def searchNumToken (word : List Char) : List Char → Option String
  | [] => Option.none
  | c :: rest =>
    match numTokenAt (c :: rest) word with
    | some g => some g
    | Option.none => searchNumToken word rest

/-- Partial statistics accumulator: the state of the Python dict named stats
inside extract_statistics before the setdefault calls
(video_parser.py lines 113-168). -/
structure StatsAcc where
  viewOpt : Option Int
  likeOpt : Option Int
  commentOpt : Option Int
  shareOpt : Option Int
deriving DecidableEq

/-- Accumulator for an empty stats dict. -/
def emptyAcc : StatsAcc :=
  ⟨Option.none, Option.none, Option.none, Option.none⟩

/-- Canonical statistics record produced by extract_statistics after the
setdefault calls and calculate_engagement_metrics: exactly the keys
view_count, like_count, comment_count, share_count and engagement_rate are
present (the float performance_score also written by
calculate_engagement_metrics is modelled separately by the real-valued
function stats_performance_score below, since it involves a real logarithm;
no claim observes it through extract_statistics). -/
structure Stats where
  view_count : Int
  like_count : Int
  comment_count : Int
  share_count : Int
  engagement_rate : Rat
deriving DecidableEq

/-- Rounding to 4 decimal digits over the rationals, modelling the Python
call round(x, 4) (video_parser.py line 198). CPython rounds ties to even;
the embedding rounds ties up. No value in the claims lies on a tie. -/
def roundTo4 (q : Rat) : Rat :=
  ((round (q * 10000) : Int) : Rat) / 10000

/-- Engagement-rate computation of calculate_engagement_metrics
(video_parser.py lines 189-200): (likes + comments + shares) / views rounded
to 4 digits when views is positive, else 0. -/
def engagement_rate_of (view like comment share : Int) : Rat :=
  if 0 < view then
    roundTo4 (((like : Rat) + (comment : Rat) + (share : Rat)) / (view : Rat))
  else 0

/-- Method 1 and method 2 of extract_statistics (video_parser.py lines
117-132): read the four counters from a structured stats object with
int(direct_stats.get(key, 0)); the int conversions are not wrapped in any
try/except, so a non-coercible value raises. -/
def statsFromDirect (ds : PyVal) : Except PyExc StatsAcc := do
  let v ← pyInt (← pyGetDefault ds "playCount" (.int 0))
  let l ← pyInt (← pyGetDefault ds "diggCount" (.int 0))
  let c ← pyInt (← pyGetDefault ds "commentCount" (.int 0))
  let s ← pyInt (← pyGetDefault ds "shareCount" (.int 0))
  pure ⟨some v, some l, some c, some s⟩

/-- Resolution of the free-text source used by method 3 of extract_statistics
(video_parser.py lines 138-144): the text field, then videoInfo.text, then
desc, defaulting to the empty string. -/
def videoTextOf (raw : PyVal) : Except PyExc PyVal := do
  if ← pyContains raw "text" then pyGetItem raw "text"
  else if ← pyContains raw "videoInfo" then do
    let vi ← pyGetItem raw "videoInfo"
    if ← pyContains vi "text" then pyGetItem vi "text"
    else if ← pyContains raw "desc" then pyGetItem raw "desc"
    else pure (.str "")
  else if ← pyContains raw "desc" then pyGetItem raw "desc"
  else pure (.str "")

/-- Method 3 of extract_statistics (video_parser.py lines 134-158): search
the free text for the three count patterns and convert group 1 of each match
with convert_count_to_number. The whole block sits in a try/except that
swallows every exception, leaving the stats dict empty; the three searches
run before any assignment, so a failure assigns nothing. The source passes
match.group(1) to the converter, and group 1 of the patterns does not include
the K/M suffix. -/
def statsFromText (raw : PyVal) : StatsAcc :=
  match (do
      let t ← videoTextOf raw
      match t with
      | .str s => pure s
      | _ => Except.error PyExc.typeError
    : Except PyExc String) with
  | .ok s =>
    { viewOpt := (searchNumToken " view".data s.data).map convert_count_to_number
      likeOpt := (searchNumToken " like".data s.data).map convert_count_to_number
      commentOpt := (searchNumToken " comment".data s.data).map convert_count_to_number
      shareOpt := Option.none }
  | .error _ => emptyAcc

/-- Fallback loop of extract_statistics (video_parser.py lines 160-168): scan
the top-level candidate view-count fields in order; int conversion failures
with ValueError or TypeError are swallowed and the loop continues; the
membership test itself is outside the try and its exceptions propagate. -/
def viewFieldLoop (raw : PyVal) : List String → Except PyExc (Option Int)
  | [] => pure Option.none
  | f :: rest => do
    if ← pyContains raw f then
      match (do pyInt (← pyGetItem raw f) : Except PyExc Int) with
      | .ok n => pure (some n)
      | .error .valueError => viewFieldLoop raw rest
      | .error .typeError => viewFieldLoop raw rest
      | .error e => Except.error e
    else viewFieldLoop raw rest

/-- Branch selection of extract_statistics (video_parser.py lines 113-158):
method 1 when a stats key exists, method 2 when itemInfo.itemStruct exists
(leaving the accumulator empty when it has no stats key), method 3 (free
text) otherwise. -/
def resolveAcc (raw : PyVal) : Except PyExc StatsAcc := do
  if ← pyContains raw "stats" then
    statsFromDirect (← pyGetItem raw "stats")
  else
    let cond2 ← (do
      if ← pyContains raw "itemInfo" then
        pyContains (← pyGetItem raw "itemInfo") "itemStruct"
      else pure false)
    if cond2 then do
      let its ← pyGetItem (← pyGetItem raw "itemInfo") "itemStruct"
      if ← pyContains its "stats" then
        statsFromDirect (← pyGetItem its "stats")
      else pure emptyAcc
    else pure (statsFromText raw)

/-- Tail of extract_statistics (video_parser.py lines 160-179): the
view-count fallback loop when the view count is missing or zero, the
setdefault calls defaulting every absent counter to 0, and
calculate_engagement_metrics. -/
def finalizeStats (raw : PyVal) (acc : StatsAcc) : Except PyExc Stats := do
  let viewResolved ←
    if acc.viewOpt = Option.none ∨ acc.viewOpt = some 0 then do
      match ← viewFieldLoop raw ["playCount", "play_count", "views", "viewCount"] with
      | some n => pure (some n)
      | Option.none => pure acc.viewOpt
    else pure acc.viewOpt
  let view := viewResolved.getD 0
  let like := acc.likeOpt.getD 0
  let comment := acc.commentOpt.getD 0
  let share := acc.shareOpt.getD 0
  pure ⟨view, like, comment, share, engagement_rate_of view like comment share⟩

/-- Model of extract_statistics (video_parser.py lines 102-179), the
composition of the branch selection and the finalisation above. -/
def extract_statistics (raw : PyVal) : Except PyExc Stats := do
  let acc ← resolveAcc raw
  finalizeStats raw acc

/-- Model of is_trending (video_parser.py lines 279-303): false below the
view threshold, false below the engagement threshold, else true. The keys
read through stats.get are always present in a record produced by
extract_statistics. -/
def is_trending (stats : Stats) (min_views : Int) (min_engagement : Rat) : Bool :=
  if stats.view_count < min_views then false
  else if stats.engagement_rate < min_engagement then false
  else true

/-- Default thresholds of is_trending (video_parser.py line 279). -/
def defaultMinViews : Int := 10000

/-- Default engagement threshold of is_trending (video_parser.py line 279). -/
def defaultMinEngagement : Rat := 5 / 100

/-- Timestamp candidate resolution of extract_timestamp (video_parser.py
lines 229-246): int(createTime) at the top level, else under
itemInfo.itemStruct, with ValueError and TypeError swallowed. -/
def createTimeOf (raw : PyVal) : Except PyExc (Option Int) := do
  if ← pyContains raw "createTime" then
    match (do pyInt (← pyGetItem raw "createTime") : Except PyExc Int) with
    | .ok n => pure (some n)
    | .error .valueError => pure Option.none
    | .error .typeError => pure Option.none
    | .error e => Except.error e
  else
    let cond2 ← (do
      if ← pyContains raw "itemInfo" then
        pyContains (← pyGetItem raw "itemInfo") "itemStruct"
      else pure false)
    if cond2 then do
      let its ← pyGetItem (← pyGetItem raw "itemInfo") "itemStruct"
      if ← pyContains its "createTime" then
        match (do pyInt (← pyGetItem its "createTime") : Except PyExc Int) with
        | .ok n => pure (some n)
        | .error .valueError => pure Option.none
        | .error .typeError => pure Option.none
        | .error e => Except.error e
      else pure Option.none
    else pure Option.none

/-- Model of extract_timestamp (video_parser.py lines 219-257). After the
module-level import "from datetime import datetime", the expressions
datetime.datetime.fromtimestamp (line 251) and datetime.datetime.now
(line 257) are attribute lookups on the datetime class and raise
AttributeError; the surrounding except clause (line 253) only catches
ValueError, TypeError and OverflowError. A truthy timestamp (not None and
nonzero) reaches line 251, every other input reaches line 257, so both
branches raise. No magnitude test distinguishing second from millisecond
timestamps exists anywhere in the function. -/
def extract_timestamp (raw : PyVal) : Except PyExc String := do
  let ts ← createTimeOf raw
  if ts.getD 0 ≠ 0 then
    Except.error PyExc.attributeError
  else
    Except.error PyExc.attributeError

/-- Scan pattern used three times in parse_video_data: for field in [...]:
if field in raw_video: value = raw_video[field]; break. The membership tests
and subscripts are not wrapped in a try/except, so their exceptions
propagate. -/
def fieldScan (raw : PyVal) : List String → Except PyExc (Option PyVal)
  | [] => pure Option.none
  | f :: rest => do
    if ← pyContains raw f then some <$> pyGetItem raw f
    else fieldScan raw rest

/-- Shared nested-structure probe of parse_video_data: the repeated Python
condition given by the two membership tests on itemInfo and itemStruct,
returning raw_video[itemInfo][itemStruct] when both succeed. -/
def itemStructOf (raw : PyVal) : Except PyExc (Option PyVal) := do
  if ← pyContains raw "itemInfo" then
    let ii ← pyGetItem raw "itemInfo"
    if ← pyContains ii "itemStruct" then some <$> pyGetItem ii "itemStruct"
    else pure Option.none
  else pure Option.none

/-- Python string concatenation with the + operator: TypeError unless both
operands are strings. -/
def pyStrConcat (a b : PyVal) : Except PyExc PyVal :=
  match a, b with
  | .str x, .str y => .ok (.str (x ++ y))
  | _, _ => .error .typeError

/-- Fields of the canonical video dict assembled by the try block of
parse_video_data before the timestamp is extracted
(video_parser.py lines 361-434). -/
structure PrefixData where
  raw_data : PyVal
  video_id : String
  video_url : PyVal
  author : PyVal
  description : PyVal
  hook : String
  hashtags : List String
  music : String

/-- Canonical video record assembled by parse_video_data
(video_parser.py lines 348-462). The float performance_score nested in the
statistics dict is modelled by the separate real-valued functions below and
is not observable here: as proved later, parse_video_data never returns. -/
structure CanonicalVideo where
  keyword : String
  raw_data : PyVal
  video_id : String
  video_url : PyVal
  author : PyVal
  description : PyVal
  hook : String
  hashtags : List String
  music : String
  timestamp : String
  statistics : Stats
  is_trending : Bool

/-- Lines 361-434 of parse_video_data: keyword and raw_data, video id with
hash fallback, video url with constructed fallback, author resolution chain,
description resolution, hook, hashtags, and music. Every conditional
reproduces the Python evaluation order, including short-circuiting that
guards the nested itemInfo probes. -/
def parse_prefix (raw : PyVal) : Except PyExc PrefixData := do
  let rawData ← (do
    if ← pyContains raw "debug_data" then pyGetDefault raw "debug_data" (.dict [])
    else pure (.dict []))
  let vid0 ← fieldScan raw ["id", "videoId", "video_id", "itemId"]
  let videoId1 : PyVal := vid0.getD PyVal.none
  let videoId ← (do
    if pyTruthy videoId1 then pure videoId1
    else
      match ← itemStructOf raw with
      | some its => pyGetDefault its "id" PyVal.none
      | Option.none => pure videoId1)
  let video_id_str : String :=
    if pyTruthy videoId then pyStr videoId
    else "unknown_" ++ toString (pyHash (pyStr raw))
  let url0 ← fieldScan raw ["url", "shareUrl", "share_url", "webVideoUrl"]
  let vurl : PyVal := url0.getD PyVal.none
  let vurl2 : PyVal :=
    if ¬ pyTruthy vurl ∧ pyTruthy videoId then
      .str ("https://www.tiktok.com/@user/video/" ++ pyStr videoId)
    else vurl
  let video_url : PyVal := if pyTruthy vurl2 then vurl2 else .str ""
  let author ← (do
    if ← pyContains raw "author" then do
      let a ← pyGetItem raw "author"
      let inner ← pyGetDefault a "nickname" (.str "unknown")
      pyGetDefault a "uniqueId" inner
    else if ← pyContains raw "author_id" then
      match raw with
      | .dict _ => do
        let aid ← pyGetItem raw "author_id"
        pyGetDefault raw "author_name" aid
      | _ => Except.error .attributeError
    else if ← pyContains raw "authorInfo" then do
      let ai ← pyGetItem raw "authorInfo"
      let inner ← pyGetDefault ai "nickname" (.str "unknown")
      pyGetDefault ai "uniqueId" inner
    else
      match ← itemStructOf raw with
      | some its => do
        let a ← pyGetDefault its "author" (.dict [])
        let inner ← pyGetDefault a "nickname" (.str "unknown")
        pyGetDefault a "uniqueId" inner
      | Option.none => pure (.str "unknown"))
  let desc0 ← fieldScan raw ["desc", "description", "text"]
  let desc1 : PyVal := desc0.getD (.str "")
  let description ← (do
    if pyTruthy desc1 then pure desc1
    else
      match ← itemStructOf raw with
      | some its => pyGetDefault its "desc" (.str "")
      | Option.none => pure desc1)
  let hook ← pyExtractHook description
  let hashtags ← pyExtractHashtags description
  let music ← (do
    if ← pyContains raw "music" then do
      let mo ← pyGetItem raw "music"
      let t ← pyGetDefault mo "title" (.str "")
      let an ← pyGetDefault mo "authorName" (.str "")
      pyStrConcat (← pyStrConcat t (.str " - ")) an
    else
      match ← itemStructOf raw with
      | some its => do
        let mo ← pyGetDefault its "music" (.dict [])
        let t ← pyGetDefault mo "title" (.str "")
        let an ← pyGetDefault mo "authorName" (.str "")
        pyStrConcat (← pyStrConcat t (.str " - ")) an
      | Option.none => pure (.str ""))
  let musicStr ← (match music with
    | .str s => pure s
    | _ => Except.error PyExc.attributeError)
  pure ⟨rawData, video_id_str, video_url, author, description, hook, hashtags,
    String.mk (pyStripChars ['-', ' '] musicStr.data)⟩

/-- Body of the try block of parse_video_data (video_parser.py lines
359-446): the prefix fields, then the timestamp (line 437), the statistics
(line 440) and the trending flag with the default thresholds (line 443). -/
def parse_body (raw : PyVal) (keyword : String) : Except PyExc CanonicalVideo := do
  let p ← parse_prefix raw
  let ts ← extract_timestamp raw
  let stats ← extract_statistics raw
  pure ⟨keyword, p.raw_data, p.video_id, p.video_url, p.author, p.description,
    p.hook, p.hashtags, p.music, ts, stats,
    is_trending stats defaultMinViews defaultMinEngagement⟩

/-- Model of parse_video_data (video_parser.py lines 348-462). The except
handler (lines 448-462) logs and builds the minimal fallback dict; evaluating
the entry written as datetime.datetime.now().isoformat() (line 458) raises
AttributeError under the module import "from datetime import datetime", and
that exception escapes to the caller. -/
def parse_video_data (raw : PyVal) (keyword : String) : Except PyExc CanonicalVideo :=
  match parse_body raw keyword with
  | .ok v => .ok v
  | .error _ => .error .attributeError

/-- Rounding to 2 decimal digits over the reals, modelling the Python call
round(x, 2) used for the performance score (video_parser.py lines 217 and
346). CPython rounds ties to even; the embedding rounds ties up; rounding to
a nearest multiple of 1/100 is monotone under either tie rule. -/
noncomputable def roundTo2R (x : Real) : Real :=
  ((round (x * 100) : Int) : Real) / 100

/-- Performance-score computation of calculate_engagement_metrics
(video_parser.py lines 202-217): a log10 view term doubled when views are
positive, plus the weighted engagement term normalised by max(views, 1) and
scaled by 10, rounded to 2 digits. Float arithmetic is idealised over the
reals. -/
noncomputable def stats_performance_score (view like comment share : Int) : Real :=
  roundTo2R ((if 0 < view then Real.logb 10 (view : Real) * 2 else 0) +
    ((like : Real) * 1 + (comment : Real) * 2 + (share : Real) * 3)
      / ((max view 1 : Int) : Real) * 10)

/-- Direct-calculation path of calculate_performance_score
(video_parser.py lines 324-346): same log10 view term, and the weighted
engagement term divided by views when positive and 0 otherwise, rounded to
2 digits. The early return of a stored performance_score (lines 320-321)
returns whatever float the statistics dict carries and is not part of the
formula. -/
noncomputable def calculate_performance_score (view like comment share : Int) : Real :=
  roundTo2R ((if 0 < view then Real.logb 10 (view : Real) * 2 else 0) +
    (if 0 < view then
      ((like : Real) * 1 + (comment : Real) * 2 + (share : Real) * 3) / (view : Real) * 10
    else 0))

/-- Video record as consumed by the ranking and deduplication plumbing: a url
(the dedup key in tiktok_api.py) and the stored performance_score float (the
sort key in main.py, read from the nested statistics dict; the defaulting of
a missing key to 0 is not modelled because the records reaching these lines
all carry the key). The score is the stored rational; the claims about
ordering do not depend on how it was computed. -/
structure RVideo where
  url : String
  performance_score : Rat
deriving DecidableEq

/-- Descending-score order used by the two sort calls in main.py
(lines 245-251 and 276-281, both with reverse=True on the score key). -/
def scoreGE (a b : RVideo) : Prop :=
  b.performance_score ≤ a.performance_score

instance : DecidableRel scoreGE := fun a b =>
  inferInstanceAs (Decidable (b.performance_score ≤ a.performance_score))

instance : IsTotal RVideo scoreGE :=
  ⟨fun a b => le_total b.performance_score a.performance_score⟩

instance : IsTrans RVideo scoreGE :=
  ⟨fun _ _ _ h1 h2 => le_trans h2 h1⟩

/-- Stable descending sort by stored performance score, modelling the CPython
call list.sort(key=score, reverse=True). CPython timsort is stable and
reverse=True preserves the original order of equal keys; a stable sort of a
total preorder is unique, and the embedding realises it as insertion sort. -/
def sortByScoreDesc (l : List RVideo) : List RVideo :=
  List.insertionSort scoreGE l

/-- Limit block of main.py (lines 272-284): whenever a positive maximum is
exceeded, sort by score and keep the top entries; otherwise leave the
collection untouched. The sort here runs regardless of the sort flag. -/
def limit_step (vs : List RVideo) (maxTotal : Int) : List RVideo :=
  if 0 < maxTotal ∧ maxTotal < (vs.length : Int) then
    (sortByScoreDesc vs).take maxTotal.toNat
  else vs

/-- Composite ranking-and-limiting step of main.py applied to one collection:
the per-keyword sort (lines 244-251, guarded by the sort flag and
non-emptiness) followed by the global limit block (lines 272-284). -/
def rank_and_limit (videos : List RVideo) (maxTotal : Int) (sortEnabled : Bool) : List RVideo :=
  limit_step (if sortEnabled ∧ videos ≠ [] then sortByScoreDesc videos else videos) maxTotal

/-- Merge step of get_videos_for_tag (tiktok_api.py lines 88-93): a set of
already-seen urls is initialised from the first collection, and each video of
the second collection is appended only when its url is unseen, its url then
joining the set. -/
def deduplicate_by_url (videos jsonVideos : List RVideo) : List RVideo :=
  (jsonVideos.foldl
    (fun (p : List RVideo × List String) jv =>
      if jv.url ∈ p.2 then p else (p.1 ++ [jv], p.2 ++ [jv.url]))
    (videos, videos.map (fun v => v.url))).1

mutual

/-- Numeric leaves of a raw record are non-negative: every int and float is
at least 0, and every string that the int conversion accepts parses to a
value at least 0. Used to state the amended non-negativity invariant of the
statistics record, which the code does not enforce for negative raw counts. -/
def nonNegLeaves : PyVal → Bool
  | .int n => decide (0 ≤ n)
  | .float q => decide (0 ≤ q)
  | .str s =>
    match pyIntOfString s with
    | some n => decide (0 ≤ n)
    | Option.none => true
  | .bool _ => true
  | .none => true
  | .dict fs => nonNegFields fs
  | .list xs => nonNegElems xs

/-- Non-negative leaves of the entries of a dict. -/
def nonNegFields : List (String × PyVal) → Bool
  | [] => true
  | p :: rest => nonNegLeaves p.2 && nonNegFields rest

/-- Non-negative leaves of the elements of a list. -/
def nonNegElems : List PyVal → Bool
  | [] => true
  | x :: rest => nonNegLeaves x && nonNegElems rest

end

/-- Ranges of the optional counters in a statistics accumulator: every
resolved counter is non-negative. -/
def accNonneg (acc : StatsAcc) : Prop :=
  (∀ n, acc.viewOpt = some n → 0 ≤ n) ∧
  (∀ n, acc.likeOpt = some n → 0 ≤ n) ∧
  (∀ n, acc.commentOpt = some n → 0 ≤ n) ∧
  (∀ n, acc.shareOpt = some n → 0 ≤ n)

theorem exceptBindOk {α β : Type} (a : α) (f : α → Except PyExc β) :
    (Except.ok a >>= f) = f a := rfl

theorem exceptBindError {α β : Type} (e : PyExc) (f : α → Except PyExc β) :
    ((Except.error e : Except PyExc α) >>= f) = Except.error e := rfl

theorem exceptPure {α : Type} (a : α) : (pure a : Except PyExc α) = Except.ok a := rfl

/-- Helper: extract_timestamp reaches one of the two datetime.datetime call
sites on every input on which it does not propagate an earlier exception, and
both raise, so it never returns a value. -/
theorem extract_timestamp_never_returns (raw : PyVal) :
    ∃ e, extract_timestamp raw = Except.error e := by
  unfold extract_timestamp
  cases h : createTimeOf raw with
  | error e => exact ⟨e, rfl⟩
  | ok ts =>
    refine ⟨.attributeError, ?_⟩
    by_cases hts : ts.getD 0 ≠ 0 <;> simp [exceptBindOk, hts]

/-- C1: the claim states that parse_video_data never raises and on internal
failure returns a minimal record with zeroed statistics. In the code every
call raises AttributeError: the try block always reaches extract_timestamp
(line 437), whose datetime.datetime lookups raise under the module import
"from datetime import datetime", and the except handler itself evaluates
datetime.datetime.now() (line 458), so the AttributeError escapes on every
input. The claim describes the intent documented in the handler comment
("Return minimal data to avoid breaking the pipeline") and the code
contradicts it, a code bug. -/
theorem parse_video_data_always_raises (raw : PyVal) (keyword : String) :
    parse_video_data raw keyword = Except.error PyExc.attributeError := by
  unfold parse_video_data parse_body
  cases hp : parse_prefix raw with
  | error e => rfl
  | ok p =>
    obtain ⟨e, he⟩ := extract_timestamp_never_returns raw
    rw [he]
    rfl

/-- C4: the claim states that unix seconds and unix milliseconds are
distinguished by a magnitude threshold and that 1700000000 and 1700000000000
normalize to the same ISO instant, with unparseable input defaulting to the
current time. In the code both inputs raise AttributeError at line 251
(datetime.datetime.fromtimestamp under the from-import of line 8, not caught
by the except clause of line 253), and no magnitude test exists anywhere in
extract_timestamp; the function contradicts its own docstring ("Returns:
Timestamp in ISO format"), a code bug. -/
theorem extract_timestamp_raises_on_unix_seconds :
    extract_timestamp (.dict [("createTime", .int 1700000000)]) =
      Except.error PyExc.attributeError ∧
    extract_timestamp (.dict [("createTime", .int 1700000000000)]) =
      Except.error PyExc.attributeError :=
  ⟨rfl, rfl⟩

/-- C2 counterexample: the claim quantifies over all threshold values, but
with min_views = 0 and min_engagement = 0 a record with exactly zero views
is classified as trending: neither guard of is_trending fires, because
0 < 0 is false for both comparisons. -/
theorem is_trending_zero_views_zero_threshold_cex :
    is_trending ⟨0, 7, 8, 9, 0⟩ 0 0 = true := rfl

/-- C2 amended: for every statistics record with view count exactly 0 and
every positive min_views threshold (in particular the default 10000),
is_trending returns false regardless of the remaining counts, the engagement
rate and the engagement threshold. The amendment restricts the original
claim from all thresholds to positive view thresholds, which the
counterexample at min_views = 0 forces. -/
theorem is_trending_zero_views_pos_threshold (s : Stats) (mv : Int) (me : Rat)
    (hv : s.view_count = 0) (hmv : 0 < mv) :
    is_trending s mv me = false := by
  unfold is_trending
  rw [hv, if_pos hmv]

theorem is_trending_zero_views_pos_threshold_witness :
    is_trending ⟨0, 5, 6, 7, 1⟩ 10000 (5 / 100) = false :=
  is_trending_zero_views_pos_threshold ⟨0, 5, 6, 7, 1⟩ 10000 (5 / 100) rfl (by norm_num)

/-- Helper: stripping never lengthens a character list. -/
theorem pyStripWS_length_le (cs : List Char) : (pyStripWS cs).length ≤ cs.length := by
  unfold pyStripWS
  calc ((cs.dropWhile Char.isWhitespace).reverse.dropWhile Char.isWhitespace).reverse.length
      = ((cs.dropWhile Char.isWhitespace).reverse.dropWhile Char.isWhitespace).length := by
        rw [List.length_reverse]
    _ ≤ (cs.dropWhile Char.isWhitespace).reverse.length :=
        (List.dropWhile_sublist _).length_le
    _ = (cs.dropWhile Char.isWhitespace).length := by rw [List.length_reverse]
    _ ≤ cs.length := (List.dropWhile_sublist _).length_le

/-- Helper: a take of at most 100 characters has length at most 100. -/
theorem take100_length_le (cs : List Char) : (cs.take 100).length ≤ 100 := by
  rw [List.length_take]
  exact min_le_left _ _

/-- C10: extract_hook returns a string of at most 100 characters on every
description (each return branch applies a slice of at most 100 characters,
and a final strip never lengthens), returns the empty string on the empty
(the only falsy) description, and the cap of exactly 100 is attained, for
instance on a run of 150 letters. -/
theorem extract_hook_spec :
    (∀ s : String, (extract_hook s).length ≤ 100) ∧
    (∀ s : String, s = "" → extract_hook s = "") ∧
    (extract_hook (String.mk (List.replicate 150 'a'))).length = 100 := by
  refine ⟨?_, ?_, rfl⟩
  · intro s
    show (extract_hook_chars s.data).length ≤ 100
    unfold extract_hook_chars
    dsimp only
    split_ifs with h0 h1 h2
    · simp [h0]
    · exact take100_length_le _
    · exact take100_length_le _
    · exact le_trans (pyStripWS_length_le _) (take100_length_le _)
  · intro s hs
    subst hs
    rfl

theorem extract_hook_spec_witness : extract_hook "" = "" :=
  extract_hook_spec.2.1 "" rfl

/-- C3: the claim states that the text fallback converts suffixed counts
(K times 1000) and that the record with free text "1.2K views, 300 likes"
yields view_count 1200 and engagement_rate 0.25. In the code the K/M suffix
sits outside capture group 1 of VIEW_COUNT_PATTERN (line 21) and line 152
passes match.group(1), the bare "1.2", to convert_count_to_number, so the
suffix written by the author of that converter is never seen: the record
yields view_count int(1.2) = 1, like_count 300, comment_count 0 and
engagement_rate round(300 / 1, 4) = 300, contradicting the intent documented
in the converter docstring, a code bug. -/
theorem extract_statistics_text_suffix_dropped :
    extract_statistics (.dict [("text", .str "1.2K views, 300 likes")]) =
      Except.ok ⟨1, 300, 0, 0, 300⟩ := by
  have h : extract_statistics (.dict [("text", .str "1.2K views, 300 likes")]) =
      Except.ok ⟨1, 300, 0, 0, engagement_rate_of 1 300 0 0⟩ := rfl
  rw [h]
  have he : engagement_rate_of 1 300 0 0 = 300 := by
    norm_num [engagement_rate_of, roundTo4]
  rw [he]

/-- Helper: the int conversion only ever fails with ValueError or TypeError,
exactly the exceptions the fallback loop of extract_statistics swallows. -/
theorem pyInt_cases (v : PyVal) :
    (∃ n, pyInt v = .ok n) ∨ pyInt v = .error .valueError ∨ pyInt v = .error .typeError := by
  cases v with
  | int n => exact .inl ⟨n, rfl⟩
  | float q => exact .inl ⟨ratTrunc q, rfl⟩
  | bool b => exact .inl ⟨if b then 1 else 0, rfl⟩
  | str s =>
    cases h : pyIntOfString s with
    | some n => exact .inl ⟨n, by simp [pyInt, h]⟩
    | none => exact .inr (.inl (by simp [pyInt, h]))
  | none => exact .inr (.inr rfl)
  | dict fs => exact .inr (.inr rfl)
  | list xs => exact .inr (.inr rfl)

/-- Helper: on a dict the fallback view-count loop of extract_statistics
never propagates an exception: the membership tests succeed and every
conversion failure is ValueError or TypeError, which the loop swallows. -/
theorem viewFieldLoop_dict_total (fs : List (String × PyVal)) (fields : List String) :
    ∃ r, viewFieldLoop (.dict fs) fields = .ok r := by
  induction fields with
  | nil => exact ⟨Option.none, rfl⟩
  | cons f rest ih =>
    unfold viewFieldLoop
    have hc : pyContains (.dict fs) f = .ok ((dictLookup fs f).isSome) := rfl
    rw [hc, exceptBindOk]
    by_cases hf : (dictLookup fs f).isSome = true
    · rw [if_pos hf]
      obtain ⟨x, hx⟩ := Option.isSome_iff_exists.mp hf
      have hg : pyGetItem (.dict fs) f = .ok x := by simp [pyGetItem, hx]
      rcases pyInt_cases x with ⟨n, hn⟩ | hn | hn <;>
        simp only [hg, exceptBindOk, hn]
      · exact ⟨some n, rfl⟩
      · exact ih
      · exact ih
    · rw [if_neg hf]
      exact ih

/-- Helper: on a dict the finalisation step of extract_statistics always
succeeds, whatever the accumulator holds. -/
theorem finalizeStats_dict_total (fs : List (String × PyVal)) (acc : StatsAcc) :
    ∃ s, finalizeStats (.dict fs) acc = .ok s := by
  unfold finalizeStats
  by_cases ha : acc.viewOpt = Option.none ∨ acc.viewOpt = some 0
  · rw [if_pos ha]
    obtain ⟨r, hr⟩ :=
      viewFieldLoop_dict_total fs ["playCount", "play_count", "views", "viewCount"]
    rw [hr]
    cases r <;> exact ⟨_, rfl⟩
  · rw [if_neg ha]
    exact ⟨_, rfl⟩

/-- C5 counterexample: the claim states that every candidate numeric value is
coerced with non-coercible values treated as absent, naming stats.playCount.
In the code the conversion int(direct_stats.get(playCount, 0)) at line 119
is not guarded by any try/except, so a non-numeric string there raises
ValueError and extract_statistics is not total. -/
theorem extract_statistics_unguarded_coercion_cex :
    extract_statistics (.dict [("stats", .dict [("playCount", .str "abc")])]) =
      Except.error PyExc.valueError := rfl

/-- C5 amended: the fall-through coercion policy holds only for the top-level
fallback view-count candidates (playCount, play_count, views, viewCount),
whose loop swallows ValueError and TypeError and continues to the next
candidate and finally to the default 0; consequently extract_statistics is
total on every record carrying neither a stats key nor an itemInfo key. On
the concrete record with playCount "abc" and views 7 the loop falls through
to views and returns 7 with all other counts 0. Values under stats (and
itemInfo.itemStruct.stats) are converted unguarded, which the counterexample
exhibits, so the original unrestricted claim fails. -/
theorem extract_statistics_coercion_fallthrough :
    (∀ fs : List (String × PyVal), dictLookup fs "stats" = Option.none →
      dictLookup fs "itemInfo" = Option.none →
      ∃ s, extract_statistics (.dict fs) = .ok s) ∧
    extract_statistics (.dict [("playCount", .str "abc"), ("views", .int 7)]) =
      Except.ok ⟨7, 0, 0, 0, 0⟩ := by
  constructor
  · intro fs h1 h2
    unfold extract_statistics resolveAcc
    have hc1 : pyContains (.dict fs) "stats" = .ok false := by
      simp [pyContains, h1]
    have hc2 : pyContains (.dict fs) "itemInfo" = .ok false := by
      simp [pyContains, h2]
    rw [hc1]
    simp only [exceptPure, exceptBindOk, Bool.false_eq_true, if_false]
    rw [hc2]
    simp only [exceptPure, exceptBindOk, Bool.false_eq_true, if_false]
    exact finalizeStats_dict_total fs (statsFromText (.dict fs))
  · have h : extract_statistics (.dict [("playCount", .str "abc"), ("views", .int 7)]) =
        Except.ok ⟨7, 0, 0, 0, engagement_rate_of 7 0 0 0⟩ := rfl
    rw [h]
    have he : engagement_rate_of 7 0 0 0 = 0 := by
      norm_num [engagement_rate_of, roundTo4]
    rw [he]

theorem extract_statistics_coercion_fallthrough_witness :
    ∃ s, extract_statistics (.dict [("desc", .str "no numbers here")]) = .ok s :=
  extract_statistics_coercion_fallthrough.1 [("desc", .str "no numbers here")] rfl rfl

/-- Helper: looking a key up in a dict whose leaves are non-negative yields a
value whose leaves are non-negative. -/
theorem nonNegFields_lookup {fs : List (String × PyVal)} {k : String} {v : PyVal}
    (hfs : nonNegFields fs = true) (hl : dictLookup fs k = some v) :
    nonNegLeaves v = true := by
  induction fs with
  | nil => simp [dictLookup] at hl
  | cons p rest ih =>
    simp only [nonNegFields, Bool.and_eq_true] at hfs
    obtain ⟨hp, hrest⟩ := hfs
    unfold dictLookup at hl
    rw [List.find?] at hl
    by_cases hk : (p.1 == k) = true
    · rw [hk] at hl
      simp at hl
      rw [← hl]
      exact hp
    · rw [Bool.not_eq_true] at hk
      rw [hk] at hl
      exact ih hrest hl

/-- Helper: subscripting preserves non-negative leaves. -/
theorem pyGetItem_nonneg {raw v : PyVal} {k : String}
    (hraw : nonNegLeaves raw = true) (h : pyGetItem raw k = .ok v) :
    nonNegLeaves v = true := by
  cases raw <;> simp [pyGetItem] at h
  case dict fs =>
    cases hl : dictLookup fs k with
    | none => rw [hl] at h; simp at h
    | some x =>
      rw [hl] at h
      simp at h
      rw [← h]
      exact nonNegFields_lookup (by rw [nonNegLeaves] at hraw; exact hraw) hl

/-- Helper: the get method with a non-negative default preserves non-negative
leaves. -/
theorem pyGetDefault_nonneg {raw d v : PyVal} {k : String}
    (hraw : nonNegLeaves raw = true) (hd : nonNegLeaves d = true)
    (h : pyGetDefault raw k d = .ok v) :
    nonNegLeaves v = true := by
  cases raw <;> simp [pyGetDefault] at h
  case dict fs =>
    cases hl : dictLookup fs k with
    | none => rw [hl] at h; simp at h; rw [← h]; exact hd
    | some x =>
      rw [hl] at h
      simp at h
      rw [← h]
      exact nonNegFields_lookup (by rw [nonNegLeaves] at hraw; exact hraw) hl

/-- Helper: the int conversion of a value with non-negative leaves is
non-negative when it succeeds. -/
theorem pyInt_nonneg {v : PyVal} {n : Int}
    (hv : nonNegLeaves v = true) (h : pyInt v = .ok n) : 0 ≤ n := by
  cases v with
  | int m =>
    rw [nonNegLeaves] at hv
    simp [pyInt] at h
    rw [← h]
    exact of_decide_eq_true hv
  | float q =>
    rw [nonNegLeaves] at hv
    have hq : (0 : Rat) ≤ q := of_decide_eq_true hv
    simp [pyInt, ratTrunc, not_lt_of_le hq] at h
    rw [← h]
    exact Int.le_floor.mpr (by exact_mod_cast hq)
  | bool b =>
    simp [pyInt] at h
    rw [← h]
    cases b <;> simp
  | str s =>
    rw [nonNegLeaves] at hv
    cases hp : pyIntOfString s with
    | none => simp [pyInt, hp] at h
    | some m =>
      simp [pyInt, hp] at h
      rw [hp] at hv
      rw [← h]
      exact of_decide_eq_true hv
  | none => simp [pyInt] at h
  | dict fs => simp [pyInt] at h
  | list xs => simp [pyInt] at h

/-- Helper: the composed get-then-int step of the structured statistics read
is non-negative on records with non-negative leaves (the default 0 included). -/
theorem getIntStep_nonneg {ds x : PyVal} {k : String} {n : Int}
    (hds : nonNegLeaves ds = true)
    (hg : pyGetDefault ds k (.int 0) = .ok x) (hi : pyInt x = .ok n) : 0 ≤ n :=
  pyInt_nonneg (pyGetDefault_nonneg hds (by rfl) hg) hi

/-- Helper: the structured statistics read produces only non-negative
counters from a stats object with non-negative leaves. -/
theorem statsFromDirect_nonneg {ds : PyVal} {acc : StatsAcc}
    (hds : nonNegLeaves ds = true) (h : statsFromDirect ds = .ok acc) :
    accNonneg acc := by
  unfold statsFromDirect at h
  cases hg1 : pyGetDefault ds "playCount" (.int 0) with
  | error e => rw [hg1] at h; simp [exceptBindError] at h
  | ok x1 =>
  rw [hg1, exceptBindOk] at h
  cases hi1 : pyInt x1 with
  | error e => rw [hi1] at h; simp [exceptBindError] at h
  | ok v1 =>
  rw [hi1, exceptBindOk] at h
  cases hg2 : pyGetDefault ds "diggCount" (.int 0) with
  | error e => rw [hg2] at h; simp [exceptBindError] at h
  | ok x2 =>
  rw [hg2, exceptBindOk] at h
  cases hi2 : pyInt x2 with
  | error e => rw [hi2] at h; simp [exceptBindError] at h
  | ok v2 =>
  rw [hi2, exceptBindOk] at h
  cases hg3 : pyGetDefault ds "commentCount" (.int 0) with
  | error e => rw [hg3] at h; simp [exceptBindError] at h
  | ok x3 =>
  rw [hg3, exceptBindOk] at h
  cases hi3 : pyInt x3 with
  | error e => rw [hi3] at h; simp [exceptBindError] at h
  | ok v3 =>
  rw [hi3, exceptBindOk] at h
  cases hg4 : pyGetDefault ds "shareCount" (.int 0) with
  | error e => rw [hg4] at h; simp [exceptBindError] at h
  | ok x4 =>
  rw [hg4, exceptBindOk] at h
  cases hi4 : pyInt x4 with
  | error e => rw [hi4] at h; simp [exceptBindError] at h
  | ok v4 =>
  rw [hi4, exceptBindOk, exceptPure] at h
  have hacc : acc = ⟨some v1, some v2, some v3, some v4⟩ := (Except.ok.inj h).symm
  subst hacc
  refine ⟨?_, ?_, ?_, ?_⟩ <;> intro n hn <;>
    (have hvn := Option.some.inj hn; subst hvn)
  · exact getIntStep_nonneg hds hg1 hi1
  · exact getIntStep_nonneg hds hg2 hi2
  · exact getIntStep_nonneg hds hg3 hi3
  · exact getIntStep_nonneg hds hg4 hi4

/-- Helper: the text converter never returns a negative count: the number
grammar has no sign and the multiplier is positive. -/
theorem convert_count_to_number_nonneg (s : String) :
    0 ≤ convert_count_to_number s := by
  unfold convert_count_to_number
  dsimp only
  split_ifs with h
  · exact le_refl 0
  · split <;> exact Int.ofNat_nonneg _

/-- Helper: the free-text fallback produces only non-negative counters,
whatever the record looks like. -/
theorem statsFromText_nonneg (raw : PyVal) : accNonneg (statsFromText raw) := by
  unfold statsFromText
  split
  · refine ⟨?_, ?_, ?_, ?_⟩ <;> intro n hn <;>
      first
        | (obtain ⟨g, hg, hgv⟩ := Option.map_eq_some'.mp hn
           rw [← hgv]
           exact convert_count_to_number_nonneg g)
        | simp at hn
  · exact ⟨fun n hn => by simp [emptyAcc] at hn, fun n hn => by simp [emptyAcc] at hn,
      fun n hn => by simp [emptyAcc] at hn, fun n hn => by simp [emptyAcc] at hn⟩

/-- Helper: a view count resolved by the fallback loop on a record with
non-negative leaves is non-negative. -/
theorem viewFieldLoop_nonneg {raw : PyVal} (hraw : nonNegLeaves raw = true) :
    ∀ (fields : List String) {r : Option Int} {n : Int},
      viewFieldLoop raw fields = .ok r → r = some n → 0 ≤ n := by
  intro fields
  induction fields with
  | nil =>
    intro r n h hr
    unfold viewFieldLoop at h
    rw [exceptPure] at h
    rw [← Except.ok.inj h] at hr
    simp at hr
  | cons f rest ih =>
    intro r n h hr
    unfold viewFieldLoop at h
    cases hc : pyContains raw f with
    | error e => rw [hc] at h; simp [exceptBindError] at h
    | ok b =>
      rw [hc, exceptBindOk] at h
      cases b with
      | false =>
        simp only [Bool.false_eq_true, if_false] at h
        exact ih h hr
      | true =>
        simp only [if_pos] at h
        cases hg : pyGetItem raw f with
        | error e =>
          rw [hg] at h
          simp only [exceptBindError] at h
          cases e <;> simp only [] at h
          · exact absurd h (by simp)
          · exact ih h hr
          · exact ih h hr
          · exact absurd h (by simp)
        | ok x =>
          rw [hg, exceptBindOk] at h
          cases hi : pyInt x with
          | error e =>
            rw [hi] at h
            cases e <;> simp only [] at h
            · exact absurd h (by simp)
            · exact ih h hr
            · exact ih h hr
            · exact absurd h (by simp)
          | ok m =>
            rw [hi] at h
            simp only [exceptPure] at h
            rw [← Except.ok.inj h] at hr
            have hmn := Option.some.inj hr
            subst hmn
            exact pyInt_nonneg (pyGetItem_nonneg hraw hg) hi

/-- Helper: a counter bound that holds for every resolved value transfers to
the defaulted value. -/
theorem getD_zero_nonneg (o : Option Int) (ho : ∀ m, o = some m → 0 ≤ m) :
    0 ≤ o.getD 0 := by
  cases o with
  | none => simp
  | some m => simpa using ho m rfl

/-- Helper: the finalisation step only emits non-negative counters when the
accumulator counters and the record leaves are non-negative. -/
theorem finalizeStats_nonneg {raw : PyVal} {acc : StatsAcc} {s : Stats}
    (hraw : nonNegLeaves raw = true) (hacc : accNonneg acc)
    (h : finalizeStats raw acc = .ok s) :
    0 ≤ s.view_count ∧ 0 ≤ s.like_count ∧ 0 ≤ s.comment_count ∧ 0 ≤ s.share_count := by
  obtain ⟨hv, hl, hc, hs4⟩ := hacc
  unfold finalizeStats at h
  by_cases hcond : acc.viewOpt = Option.none ∨ acc.viewOpt = some 0
  · rw [if_pos hcond] at h
    cases hloop : viewFieldLoop raw ["playCount", "play_count", "views", "viewCount"] with
    | error e => rw [hloop] at h; simp [exceptBindError] at h
    | ok r =>
      rw [hloop, exceptBindOk] at h
      cases r with
      | some m =>
        simp only [exceptPure, exceptBindOk] at h
        rw [← Except.ok.inj h]
        refine ⟨?_, ?_, ?_, ?_⟩
        · simpa using viewFieldLoop_nonneg hraw _ hloop rfl
        · exact getD_zero_nonneg _ hl
        · exact getD_zero_nonneg _ hc
        · exact getD_zero_nonneg _ hs4
      | none =>
        simp only [exceptPure, exceptBindOk] at h
        rw [← Except.ok.inj h]
        exact ⟨getD_zero_nonneg _ hv, getD_zero_nonneg _ hl,
          getD_zero_nonneg _ hc, getD_zero_nonneg _ hs4⟩
  · rw [if_neg hcond] at h
    simp only [exceptPure, exceptBindOk] at h
    rw [← Except.ok.inj h]
    exact ⟨getD_zero_nonneg _ hv, getD_zero_nonneg _ hl,
      getD_zero_nonneg _ hc, getD_zero_nonneg _ hs4⟩

/-- Helper: the accumulator non-negativity invariant of the empty
accumulator. -/
theorem emptyAcc_nonneg : accNonneg emptyAcc :=
  ⟨fun n hn => by simp [emptyAcc] at hn, fun n hn => by simp [emptyAcc] at hn,
    fun n hn => by simp [emptyAcc] at hn, fun n hn => by simp [emptyAcc] at hn⟩

/-- Helper: every accumulator produced by the branch selection from a record
with non-negative leaves has non-negative counters. -/
theorem resolveAcc_nonneg {raw : PyVal} {acc : StatsAcc}
    (hraw : nonNegLeaves raw = true) (h : resolveAcc raw = .ok acc) :
    accNonneg acc := by
  unfold resolveAcc at h
  cases hc1 : pyContains raw "stats" with
  | error e => rw [hc1] at h; simp [exceptBindError] at h
  | ok b1 =>
    rw [hc1, exceptBindOk] at h
    cases b1 with
    | true =>
      simp only [if_pos] at h
      cases hg : pyGetItem raw "stats" with
      | error e => rw [hg] at h; simp [exceptBindError] at h
      | ok ds =>
        rw [hg, exceptBindOk] at h
        exact statsFromDirect_nonneg (pyGetItem_nonneg hraw hg) h
    | false =>
      simp only [Bool.false_eq_true, if_false] at h
      cases hc2 : pyContains raw "itemInfo" with
      | error e => rw [hc2] at h; simp [exceptBindError] at h
      | ok b2 =>
        rw [hc2, exceptBindOk] at h
        cases b2 with
        | false =>
          simp only [Bool.false_eq_true, if_false, exceptPure, exceptBindOk] at h
          rw [← Except.ok.inj h]
          exact statsFromText_nonneg raw
        | true =>
          simp only [if_pos] at h
          cases hgi : pyGetItem raw "itemInfo" with
          | error e => rw [hgi] at h; simp [exceptBindError] at h
          | ok ii =>
            rw [hgi, exceptBindOk] at h
            cases hc3 : pyContains ii "itemStruct" with
            | error e => rw [hc3] at h; simp [exceptBindError] at h
            | ok b3 =>
              rw [hc3, exceptBindOk, exceptPure, exceptBindOk] at h
              cases b3 with
              | false =>
                simp only [Bool.false_eq_true, if_false, exceptPure, exceptBindOk] at h
                rw [← Except.ok.inj h]
                exact statsFromText_nonneg raw
              | true =>
                simp only [if_pos] at h
                cases hgs : pyGetItem ii "itemStruct" with
                | error e => rw [hgs] at h; simp [exceptBindError] at h
                | ok its =>
                  rw [hgs, exceptBindOk] at h
                  cases hc4 : pyContains its "stats" with
                  | error e => rw [hc4] at h; simp [exceptBindError] at h
                  | ok b4 =>
                    rw [hc4, exceptBindOk] at h
                    cases b4 with
                    | false =>
                      simp only [Bool.false_eq_true, if_false, exceptPure] at h
                      rw [← Except.ok.inj h]
                      exact emptyAcc_nonneg
                    | true =>
                      simp only [if_pos] at h
                      cases hg5 : pyGetItem its "stats" with
                      | error e => rw [hg5] at h; simp [exceptBindError] at h
                      | ok ds =>
                        rw [hg5, exceptBindOk] at h
                        exact statsFromDirect_nonneg
                          (pyGetItem_nonneg
                            (pyGetItem_nonneg (pyGetItem_nonneg hraw hgi) hgs) hg5) h

/-- C6 counterexample: the claim asserts that every count sub-field is
non-negative (and lists a favorites count). A raw record with a negative
structured playCount passes through unclamped: the produced record has
view_count equal to -5. Separately, no path of extract_statistics ever
writes a favorites key; the record carries exactly view, like, comment and
share counts plus the derived engagement rate. -/
theorem extract_statistics_negative_count_cex :
    extract_statistics (.dict [("stats", .dict [("playCount", .int (-5))])]) =
      Except.ok ⟨-5, 0, 0, 0, 0⟩ ∧ ((-5 : Int) < 0) := by
  constructor
  · have h : extract_statistics (.dict [("stats", .dict [("playCount", .int (-5))])]) =
        Except.ok ⟨-5, 0, 0, 0, engagement_rate_of (-5) 0 0 0⟩ := rfl
    rw [h]
    rfl
  · norm_num

/-- C6 amended: every statistics record produced by extract_statistics
carries exactly the four count fields view, like, comment and share (as the
type of the result records), each an integer defaulted to 0 when
unresolvable; no favorites count exists in the code. The counts are
non-negative whenever every numeric leaf of the raw record is non-negative;
negative raw values pass through unclamped, which the counterexample forces
as a restriction of the original unconditional claim. A raw record with no
stats, itemInfo or numeric fields yields all-zero statistics, and the
all-zero record is not trending under the default thresholds. -/
theorem extract_statistics_count_fields :
    (∀ (raw : PyVal) (s : Stats), nonNegLeaves raw = true →
      extract_statistics raw = .ok s →
      0 ≤ s.view_count ∧ 0 ≤ s.like_count ∧ 0 ≤ s.comment_count ∧ 0 ≤ s.share_count) ∧
    extract_statistics (.dict []) = .ok ⟨0, 0, 0, 0, 0⟩ ∧
    is_trending ⟨0, 0, 0, 0, 0⟩ defaultMinViews defaultMinEngagement = false := by
  refine ⟨?_, rfl, rfl⟩
  intro raw s hraw h
  unfold extract_statistics at h
  cases ha : resolveAcc raw with
  | error e => rw [ha] at h; simp [exceptBindError] at h
  | ok acc =>
    rw [ha, exceptBindOk] at h
    exact finalizeStats_nonneg hraw (resolveAcc_nonneg hraw ha) h

theorem extract_statistics_count_fields_witness :
    0 ≤ (⟨42, 0, 0, 0, engagement_rate_of 42 0 0 0⟩ : Stats).view_count ∧
    0 ≤ (⟨42, 0, 0, 0, engagement_rate_of 42 0 0 0⟩ : Stats).like_count ∧
    0 ≤ (⟨42, 0, 0, 0, engagement_rate_of 42 0 0 0⟩ : Stats).comment_count ∧
    0 ≤ (⟨42, 0, 0, 0, engagement_rate_of 42 0 0 0⟩ : Stats).share_count :=
  extract_statistics_count_fields.1
    (.dict [("stats", .dict [("playCount", .int 42)])])
    ⟨42, 0, 0, 0, engagement_rate_of 42 0 0 0⟩ rfl rfl

/-- Helper: rounding to the nearest integer is monotone. -/
theorem roundInt_mono {x y : Real} (h : x ≤ y) : (round x : Int) ≤ round y := by
  rw [round_eq, round_eq]
  exact Int.floor_mono (by linarith)

/-- Helper: rounding to 2 decimal digits is monotone. -/
theorem roundTo2R_mono {x y : Real} (h : x ≤ y) : roundTo2R x ≤ roundTo2R y := by
  unfold roundTo2R
  have h2 : ((round (x * 100) : Int) : Real) ≤ ((round (y * 100) : Int) : Real) :=
    Int.cast_le.mpr (roundInt_mono (by linarith))
  linarith

/-- C7: with likes, comments and shares all 0, the performance score is
monotonically non-decreasing in the view count, both along the formula of
calculate_performance_score (the ranking path) and the formula of
calculate_engagement_metrics (the normalizer path): the engagement term
vanishes, the doubled log10 view term is monotone (and 0 at zero views,
below every positive-view score), and the 2-digit rounding is monotone. -/
theorem performance_score_monotone_in_views (v1 v2 : Nat) (h : v1 ≤ v2) :
    calculate_performance_score (v1 : Int) 0 0 0 ≤ calculate_performance_score (v2 : Int) 0 0 0 ∧
    stats_performance_score (v1 : Int) 0 0 0 ≤ stats_performance_score (v2 : Int) 0 0 0 := by
  have key : ∀ a b : Nat, a ≤ b →
      (if (0 : Int) < (a : Int) then Real.logb 10 ((a : Int) : Real) * 2 else 0) ≤
      (if (0 : Int) < (b : Int) then Real.logb 10 ((b : Int) : Real) * 2 else 0) := by
    intro a b hab
    rcases Nat.eq_zero_or_pos a with ha | ha
    · subst ha
      rw [if_neg (by norm_num)]
      rcases Nat.eq_zero_or_pos b with hb | hb
      · subst hb
        rw [if_neg (by norm_num)]
      · have hbi : (0 : Int) < (b : Int) := by exact_mod_cast hb
        rw [if_pos hbi]
        have hlb : (0 : Real) ≤ Real.logb 10 ((b : Int) : Real) :=
          Real.logb_nonneg (by norm_num) (by exact_mod_cast hb)
        linarith
    · have hai : (0 : Int) < (a : Int) := by exact_mod_cast ha
      have hbi : (0 : Int) < (b : Int) := by exact_mod_cast lt_of_lt_of_le ha hab
      rw [if_pos hai, if_pos hbi]
      have hlog : Real.logb 10 ((a : Int) : Real) ≤ Real.logb 10 ((b : Int) : Real) :=
        Real.logb_le_logb_of_le (by norm_num) (by exact_mod_cast hai) (by exact_mod_cast hab)
      linarith
  have hc : ∀ v : Nat, calculate_performance_score (v : Int) 0 0 0 =
      roundTo2R (if (0 : Int) < (v : Int) then Real.logb 10 ((v : Int) : Real) * 2 else 0) := by
    intro v
    unfold calculate_performance_score
    norm_num [ite_self]
  have hs : ∀ v : Nat, stats_performance_score (v : Int) 0 0 0 =
      roundTo2R (if (0 : Int) < (v : Int) then Real.logb 10 ((v : Int) : Real) * 2 else 0) := by
    intro v
    unfold stats_performance_score
    norm_num
  rw [hc v1, hc v2, hs v1, hs v2]
  exact ⟨roundTo2R_mono (key v1 v2 h), roundTo2R_mono (key v1 v2 h)⟩

theorem performance_score_monotone_in_views_witness :
    calculate_performance_score ((3 : Nat) : Int) 0 0 0 ≤
      calculate_performance_score ((5 : Nat) : Int) 0 0 0 ∧
    stats_performance_score ((3 : Nat) : Int) 0 0 0 ≤
      stats_performance_score ((5 : Nat) : Int) 0 0 0 :=
  performance_score_monotone_in_views 3 5 (by norm_num)

/-- Helper: the sort used by the ranking step is sorted by descending score. -/
theorem sortByScoreDesc_sorted (l : List RVideo) :
    List.Sorted scoreGE (sortByScoreDesc l) :=
  List.sorted_insertionSort scoreGE l

/-- Helper: sorting an already sorted collection changes nothing, which makes
the repeated sort of the limit block invisible. -/
theorem sortByScoreDesc_eq_of_sorted {l : List RVideo} (h : List.Sorted scoreGE l) :
    sortByScoreDesc l = l :=
  h.insertionSort_eq

/-- Helper: sorting preserves the length. -/
theorem sortByScoreDesc_length (l : List RVideo) :
    (sortByScoreDesc l).length = l.length :=
  List.length_insertionSort scoreGE l

/-- C8 counterexample: the claim states that with sorting disabled the step
only truncates, preserving discovery order, so on the two-element collection
below with max 1 it would return the first element (score 1). The limit
block of main.py (lines 272-284) sorts by score before truncating whenever a
positive maximum is exceeded, regardless of the sort flag, and returns the
higher-scored second element instead. -/
theorem rank_and_limit_disabled_sorts_cex :
    rank_and_limit [⟨"a", 1⟩, ⟨"b", 5⟩] 1 false = [⟨"b", 5⟩] ∧
    List.take 1 [(⟨"a", 1⟩ : RVideo), ⟨"b", 5⟩] = [⟨"a", 1⟩] ∧
    ([⟨"b", 5⟩] : List RVideo) ≠ [⟨"a", 1⟩] :=
  ⟨by decide, by decide, by decide⟩

/-- C8 amended: with sorting enabled and a positive maximum, the composite
ranking step returns exactly the stable descending sort truncated to the
maximum: the result is sorted by non-increasing score, and two videos of
equal score retain their relative input order in the sorted sequence (of
which the result is a prefix). With sorting disabled the step preserves the
input exactly when no truncation is needed; when a positive maximum is
exceeded it sorts by descending score before truncating rather than
truncating the discovery order, which is what the counterexample forces the
original claim to concede. -/
theorem rank_and_limit_spec :
    (∀ (vs : List RVideo) (m : Int), 0 < m →
      rank_and_limit vs m true = (sortByScoreDesc vs).take m.toNat ∧
      List.Sorted scoreGE (rank_and_limit vs m true)) ∧
    (∀ (vs : List RVideo) (a b : RVideo), List.Sublist [a, b] vs →
      a.performance_score = b.performance_score →
      List.Sublist [a, b] (sortByScoreDesc vs)) ∧
    (∀ (vs : List RVideo) (m : Int), ¬ (0 < m ∧ m < (vs.length : Int)) →
      rank_and_limit vs m false = vs) ∧
    (∀ (vs : List RVideo) (m : Int), 0 < m → m < (vs.length : Int) →
      rank_and_limit vs m false = (sortByScoreDesc vs).take m.toNat) := by
  have hlimit : ∀ (vs : List RVideo) (m : Int), 0 < m →
      List.Sorted scoreGE vs → limit_step vs m = vs.take m.toNat := by
    intro vs m hm hsorted
    unfold limit_step
    by_cases hlen : m < (vs.length : Int)
    · rw [if_pos ⟨hm, hlen⟩, sortByScoreDesc_eq_of_sorted hsorted]
    · rw [if_neg (fun hand => hlen hand.2)]
      refine (List.take_of_length_le ?_).symm
      omega
  have henabled : ∀ (vs : List RVideo) (m : Int), 0 < m →
      rank_and_limit vs m true = (sortByScoreDesc vs).take m.toNat := by
    intro vs m hm
    unfold rank_and_limit
    by_cases hvs : vs = []
    · subst hvs
      rw [if_neg (by simp)]
      have h0 : sortByScoreDesc ([] : List RVideo) = [] := rfl
      rw [h0, hlimit [] m hm List.sorted_nil]
    · rw [if_pos ⟨rfl, hvs⟩]
      exact hlimit (sortByScoreDesc vs) m hm (sortByScoreDesc_sorted vs)
  refine ⟨?_, ?_, ?_, ?_⟩
  · intro vs m hm
    refine ⟨henabled vs m hm, ?_⟩
    rw [henabled vs m hm]
    exact (sortByScoreDesc_sorted vs).sublist (List.take_sublist _ _)
  · intro vs a b hsub heq
    exact List.pair_sublist_insertionSort (le_of_eq heq.symm) hsub
  · intro vs m hm
    unfold rank_and_limit
    rw [if_neg (by simp)]
    unfold limit_step
    rw [if_neg hm]
  · intro vs m hm hlen
    unfold rank_and_limit
    rw [if_neg (by simp)]
    unfold limit_step
    rw [if_pos ⟨hm, hlen⟩]

theorem rank_and_limit_spec_witness :
    rank_and_limit [⟨"a", 1⟩, ⟨"b", 5⟩] 1 true =
      (sortByScoreDesc [⟨"a", 1⟩, ⟨"b", 5⟩]).take (1 : Int).toNat ∧
    List.Sorted scoreGE (rank_and_limit [⟨"a", 1⟩, ⟨"b", 5⟩] 1 true) :=
  rank_and_limit_spec.1 [⟨"a", 1⟩, ⟨"b", 5⟩] 1 (by norm_num)

/-- Helper: the merge loop of get_videos_for_tag appends, after the original
collection, only elements of the second collection whose url was not in the
initial seen set. -/
theorem dedup_fold_spec (js : List RVideo) :
    ∀ (acc : List RVideo) (seen : List String),
      ∃ extra, (js.foldl
          (fun (p : List RVideo × List String) jv =>
            if jv.url ∈ p.2 then p else (p.1 ++ [jv], p.2 ++ [jv.url]))
          (acc, seen)).1 = acc ++ extra ∧
        ∀ x ∈ extra, x ∈ js ∧ x.url ∉ seen := by
  induction js with
  | nil =>
    intro acc seen
    exact ⟨[], by simp, by simp⟩
  | cons j rest ih =>
    intro acc seen
    rw [List.foldl_cons]
    dsimp only
    by_cases hj : j.url ∈ seen
    · rw [if_pos hj]
      obtain ⟨extra, h1, h2⟩ := ih acc seen
      exact ⟨extra, h1, fun x hx =>
        ⟨List.mem_cons_of_mem _ (h2 x hx).1, (h2 x hx).2⟩⟩
    · rw [if_neg hj]
      obtain ⟨extra, h1, h2⟩ := ih (acc ++ [j]) (seen ++ [j.url])
      refine ⟨j :: extra, by rw [h1]; simp, ?_⟩
      intro x hx
      rcases List.mem_cons.mp hx with hxj | hxe
      · subst hxj
        exact ⟨List.mem_cons_self _ _, hj⟩
      · have hx2 := h2 x hxe
        exact ⟨List.mem_cons_of_mem _ hx2.1,
          fun hxs => hx2.2 (List.mem_append_left _ hxs)⟩

/-- C9: merging two collections deduplicates by url with first-seen wins:
the first collection is returned unchanged as a prefix, every appended video
comes from the second collection and has a url absent from the first, and on
the concrete pair of collections sharing the url of A the result is A, B, C
with A taken from the first collection (score 1, not the score-9 record of
the second collection). -/
theorem deduplicate_by_url_spec :
    (∀ vs js : List RVideo, (deduplicate_by_url vs js).take vs.length = vs) ∧
    (∀ vs js : List RVideo, ∀ x ∈ (deduplicate_by_url vs js).drop vs.length,
      x ∈ js ∧ x.url ∉ vs.map (fun v => v.url)) ∧
    deduplicate_by_url [⟨"urlA", 1⟩, ⟨"urlB", 2⟩] [⟨"urlA", 9⟩, ⟨"urlC", 3⟩] =
      [⟨"urlA", 1⟩, ⟨"urlB", 2⟩, ⟨"urlC", 3⟩] := by
  refine ⟨?_, ?_, by decide⟩
  · intro vs js
    obtain ⟨extra, h1, _⟩ := dedup_fold_spec js vs (vs.map (fun v => v.url))
    unfold deduplicate_by_url
    rw [h1]
    exact List.take_left vs extra
  · intro vs js x hx
    obtain ⟨extra, h1, h2⟩ := dedup_fold_spec js vs (vs.map (fun v => v.url))
    unfold deduplicate_by_url at hx
    rw [h1, List.drop_left] at hx
    exact h2 x hx

theorem deduplicate_by_url_spec_witness :
    (⟨"urlC", 3⟩ : RVideo) ∈ [(⟨"urlA", 9⟩ : RVideo), ⟨"urlC", 3⟩] ∧
    (⟨"urlC", 3⟩ : RVideo).url ∉
      ([(⟨"urlA", 1⟩ : RVideo), ⟨"urlB", 2⟩].map (fun v => v.url)) :=
  deduplicate_by_url_spec.2.1 [⟨"urlA", 1⟩, ⟨"urlB", 2⟩] [⟨"urlA", 9⟩, ⟨"urlC", 3⟩]
    ⟨"urlC", 3⟩ (by decide)
